import Mathlib

/-!
Shallow embedding of `src/net_socket.c` (tinc): the transport-establishment
core — retry backoff (`retry_outgoing`), the address-source walk and outgoing
connection loop (`do_outgoing_connection`), outgoing setup
(`setup_outgoing_connection`), startup processing of `ConnectTo`
(`try_outgoing_connections`), bind-address handling (`bind_to_address`) and
the accept path (`handle_new_meta_connection`).

External collaborators (resolver, socket creation, thread creation,
`sockaddr2hostname`, identifier validation `check_id`) are parameters of the
embedded functions; machine-level concerns (errno strings, log text) are
dropped, log *events* are kept where a claim mentions them.
-/

set_option linter.unusedVariables false
set_option linter.unnecessarySeqFocus false

namespace TincNet

/-- One resolved socket address as produced by the resolver: the host and
service tokens that were passed to `str2addrinfo` / that
`sockaddr2hostname` would render.  The address family and binary form are
irrelevant to the control flow of this module. -/
structure SockAddr where
  host : String
  port : String
deriving DecidableEq

/-- The slice of a peer's `c->config_tree` that this module reads: the
ordered list of `Address` entries (`lookup_config` / `lookup_config_next`
chain) and the optional `Port` value. -/
structure PeerConfig where
  addresses : List String
  port : Option String
deriving DecidableEq

/-- `outgoing_t`: one pending outgoing attempt.  `cfgs` is the remaining
`Address` configuration chain (`outgoing->cfg`), `ai` the resolved list
currently held (`outgoing->ai`, `none` = NULL), `aip` the cursor into it
(`outgoing->aip`), `timeout` the retry timeout in seconds, and
`evArmed`/`evTime` the retry event (`outgoing->ev`): whether it is in the
event queue and for what fire time. -/
structure Outgoing where
  name : String
  cfgs : List String
  ai : Option (List SockAddr)
  aip : List SockAddr
  timeout : Nat
  evArmed : Bool
  evTime : Nat
deriving DecidableEq

/-- Default of the process-wide `maxtimeout` variable (net_socket.c:44). -/
def maxtimeout_default : Nat := 900

/-- `retry_outgoing` (net_socket.c:292-305): `outgoing->timeout += 5`, cap
at `maxtimeout`, arm the retry event for `time(NULL) + timeout`. -/
def retry_outgoing (maxtimeout now : Nat) (o : Outgoing) : Outgoing :=
  let t0 := o.timeout + 5
  let t := if t0 > maxtimeout then maxtimeout else t0
  { o with timeout := t, evArmed := true, evTime := now + t }

/-- A freshly allocated `outgoing_t` (`xmalloc_and_zero` in
`try_outgoing_connections`, net_socket.c:525-526): all fields zeroed except
the name. -/
def initial_outgoing (name : String) : Outgoing :=
  { name := name, cfgs := [], ai := none, aip := [], timeout := 0,
    evArmed := false, evTime := 0 }

/-- The pending outgoing after `n` consecutive retry-scheduling steps
starting from a fresh attempt (base time 0). -/
def nth_retry (maxtimeout : Nat) : Nat → Outgoing
  | 0 => initial_outgoing "peer"
  | n + 1 => retry_outgoing maxtimeout 0 (nth_retry maxtimeout n)

/-- `strchr(address, ' ')` and splitting there (net_socket.c:340-343):
`some (h, p)` when the entry contains a space, `h` being the part before
the *first* space and `p` everything after it; `none` when there is no
space. -/
def splitAtSpace : List Char → Option (List Char × List Char)
  | [] => none
  | ch :: rest =>
    if ch = ' ' then some ([], rest)
    else
      match splitAtSpace rest with
      | none => none
      | some (h, p) => some (ch :: h, p)

/-- net_socket.c:338-347: split an `Address` entry at the first space into
host and port tokens; an entry without an embedded port falls back to the
peer's configured `Port`, or to `"655"` when no `Port` is configured. -/
def entryHostPort (cfgPort : Option String) (entry : String) : String × String :=
  match splitAtSpace entry.toList with
  | some (h, p) => (String.mk h, String.mk p)
  | none =>
    match cfgPort with
    | some p => (entry, p)
    | none => (entry, "655")

/-- `str2addrinfo(address, port, SOCK_STREAM)`: `none` models a failed
resolution (NULL), `some l` the resolved candidate list in resolver
order. -/
abbrev Resolver := String → String → Option (List SockAddr)

/-- Termination measure helper: total number of loop steps the `begin:`
loop can still take on the remaining configuration entries. -/
def cfgsWeight (res : Resolver) (cfg : PeerConfig) : List String → Nat
  | [] => 0
  | e :: rest =>
    ((res (entryHostPort cfg.port e).1 (entryHostPort cfg.port e).2).getD []).length
      + 2 + cfgsWeight res cfg rest

/-- `advance` on the address source: the `begin:` loop of
`do_outgoing_connection` (net_socket.c:327-365) up to and including taking
the next candidate, with the socket-creation part left out.  Returns the
candidate (if any) together with the updated source: resolving an entry
consumes it from `cfgs` and installs its candidate list; an exhausted inner
list is released (`freeaddrinfo`, `ai = NULL`) and the loop retries; `none`
is returned only once `cfgs` is exhausted. -/
def advance (res : Resolver) (cfg : PeerConfig) :
    Outgoing → Option SockAddr × Outgoing
  | ⟨nm, [], none, aip, tm, ea, et⟩ =>
    (none, ⟨nm, [], none, aip, tm, ea, et⟩)
  | ⟨nm, e :: rest, none, aip, tm, ea, et⟩ =>
    let hp := entryHostPort cfg.port e
    let l := res hp.1 hp.2
    advance res cfg ⟨nm, rest, l, l.getD [], tm, ea, et⟩
  | ⟨nm, cfgs, some l, [], tm, ea, et⟩ =>
    advance res cfg ⟨nm, cfgs, none, [], tm, ea, et⟩
  | ⟨nm, cfgs, some l, a :: rest, tm, ea, et⟩ =>
    (some a, ⟨nm, cfgs, some l, rest, tm, ea, et⟩)
termination_by o => o.aip.length + (if o.ai.isSome then 1 else 0) + cfgsWeight res cfg o.cfgs
decreasing_by
  all_goals simp [cfgsWeight]
  all_goals cases res (entryHostPort cfg.port e).1 (entryHostPort cfg.port e).2 <;>
    simp <;> omega

/-- The full ordered sequence of candidate addresses an outgoing round
walks: repeated `advance` until exhaustion. -/
def attemptList (res : Resolver) (cfg : PeerConfig) : Outgoing → List SockAddr
  | ⟨nm, [], none, aip, tm, ea, et⟩ => []
  | ⟨nm, e :: rest, none, aip, tm, ea, et⟩ =>
    let hp := entryHostPort cfg.port e
    let l := res hp.1 hp.2
    attemptList res cfg ⟨nm, rest, l, l.getD [], tm, ea, et⟩
  | ⟨nm, cfgs, some l, [], tm, ea, et⟩ =>
    attemptList res cfg ⟨nm, cfgs, none, [], tm, ea, et⟩
  | ⟨nm, cfgs, some l, a :: rest, tm, ea, et⟩ =>
    a :: attemptList res cfg ⟨nm, cfgs, some l, rest, tm, ea, et⟩
termination_by o => o.aip.length + (if o.ai.isSome then 1 else 0) + cfgsWeight res cfg o.cfgs
decreasing_by
  all_goals simp [cfgsWeight]
  all_goals cases res (entryHostPort cfg.port e).1 (entryHostPort cfg.port e).2 <;>
    simp <;> omega

/-- A fresh address source over the given configuration entries: what
`setup_outgoing_connection` installs (`outgoing->cfg = lookup_config(...,
"Address")`) on a zeroed / exhausted outgoing. -/
def fresh_source (name : String) (entries : List String) : Outgoing :=
  { initial_outgoing name with cfgs := entries }

/-- `connection_t`: the fields of a connection record this module touches.
Omitted: cipher/digest/compression parameters, `last_ping_time`, the
thread handle and buffers (owned by external collaborators). -/
structure Conn where
  id : Nat
  name : String
  address : Option SockAddr := none
  hostname : Option String := none
  socket : Option Nat := none
  connecting : Bool := false
  outgoing : Option Outgoing := none
deriving DecidableEq

/-- Outcome of `do_outgoing_connection` (net_socket.c:318-397):
`fatal` — `abort()` at line 324 (`c->outgoing` missing);
`retryScheduled og` — lines 330-335: `retry_outgoing` armed the retry timer
on the pending outgoing, `c->outgoing` was cleared *before* the record was
deleted (`connection_del`), so `og` together with its armed timer survives
the deletion and is returned here, unreferenced by any record;
`connecting c` — line 396: the routine returned with the record's target
address, hostname label and socket set and `status.connecting` true. -/
inductive DoOutResult where
  | fatal
  | retryScheduled (og : Outgoing)
  | connecting (c : Conn)
deriving DecidableEq

/-- The `begin:` loop of `do_outgoing_connection` (net_socket.c:327-397):
resolve / walk candidates; on each candidate, copy it into `c->address`,
recompute `c->hostname`, create the socket (`mkSock`; `none` = `socket()`
returned -1, which loops back to `begin`); on success set
`status.connecting` and return.  On total exhaustion schedule the retry
and delete the record. -/
def do_outgoing_loop (res : Resolver) (cfg : PeerConfig)
    (mkSock : SockAddr → Option Nat) (h2n : SockAddr → String)
    (maxT now : Nat) : Conn → Outgoing → DoOutResult
  | c, ⟨nm, [], none, aip, tm, ea, et⟩ =>
    .retryScheduled (retry_outgoing maxT now ⟨nm, [], none, aip, tm, ea, et⟩)
  | c, ⟨nm, e :: rest, none, aip, tm, ea, et⟩ =>
    let hp := entryHostPort cfg.port e
    let l := res hp.1 hp.2
    do_outgoing_loop res cfg mkSock h2n maxT now c ⟨nm, rest, l, l.getD [], tm, ea, et⟩
  | c, ⟨nm, cfgs, some l, [], tm, ea, et⟩ =>
    do_outgoing_loop res cfg mkSock h2n maxT now c ⟨nm, cfgs, none, [], tm, ea, et⟩
  | c, ⟨nm, cfgs, some l, a :: rest, tm, ea, et⟩ =>
    let c1 := { c with address := some a, hostname := some (h2n a) }
    let o1 : Outgoing := ⟨nm, cfgs, some l, rest, tm, ea, et⟩
    match mkSock a with
    | none => do_outgoing_loop res cfg mkSock h2n maxT now c1 o1
    | some s =>
      .connecting { c1 with socket := some s, connecting := true, outgoing := some o1 }
termination_by c o => o.aip.length + (if o.ai.isSome then 1 else 0) + cfgsWeight res cfg o.cfgs
decreasing_by
  all_goals simp [cfgsWeight]
  all_goals cases res (entryHostPort cfg.port e).1 (entryHostPort cfg.port e).2 <;>
    simp <;> omega

/-- `do_outgoing_connection` (net_socket.c:318-397): abort when the record
has no pending-outgoing back-reference, otherwise run the `begin:` loop. -/
def do_outgoing_connection (res : Resolver) (cfg : PeerConfig)
    (mkSock : SockAddr → Option Nat) (h2n : SockAddr → String)
    (maxT now : Nat) (c : Conn) : DoOutResult :=
  match c.outgoing with
  | none => .fatal
  | some o => do_outgoing_loop res cfg mkSock h2n maxT now c o

/-- `node_t`: the part of a node relevant here — its name and
`n->connection`, the id of its live connection record (if any). -/
structure NodeR where
  name : String
  connection : Option Nat
deriving DecidableEq

/-- The process-wide mutable state this module manipulates: the node tree
(for `lookup_node`), the connection registry (`connection_tree`, mutated by
`connection_add` / `connection_del`), the `outgoing_list` (names of the
`outgoing_t` entries inserted by `try_outgoing_connections`), and the next
fresh record id (`new_connection` allocation). -/
structure World where
  nodes : List NodeR
  conns : List Conn
  outgoingNames : List String
  nextId : Nat
deriving DecidableEq

/-- `lookup_node(name)`. -/
def lookup_node (w : World) (name : String) : Option NodeR :=
  w.nodes.find? fun n => n.name == name

/-- `n->connection->outgoing = outgoing` (net_socket.c:411): attach the
pending outgoing to the existing connection record `cid`. -/
def attach_outgoing (conns : List Conn) (cid : Nat) (og : Outgoing) : List Conn :=
  conns.map fun c => if c.id = cid then { c with outgoing := some og } else c

/-- Outcome of `setup_outgoing_connection` (net_socket.c:399-444):
`attached og` — line 408-413: the peer already had a live connection record;
the (disarmed) outgoing was attached to it and the call returned;
`noAddress og` — lines 427-431: no `Address` entry; logged, the fresh record
freed, return with no retry armed (`og` is the outgoing as left behind);
`started cid r` — the record `cid` was registered and
`do_outgoing_connection` ran with result `r`, then the worker thread was
created;
`fatalThread` — line 440-443: `thread_create` failed, `abort()`. -/
inductive SetupResult where
  | attached (og : Outgoing)
  | noAddress (og : Outgoing)
  | started (cid : Nat) (r : DoOutResult)
  | fatalThread
deriving DecidableEq

/-- `setup_outgoing_connection` (net_socket.c:399-444).  `peerCfg` is
`read_connection_config` (the peer's host config file); `threadOk` is
whether `thread_create` succeeds.  `event_del(&outgoing->ev)` is the
initial disarm. -/
def setup_outgoing_connection (peerCfg : String → PeerConfig) (res : Resolver)
    (mkSock : SockAddr → Option Nat) (h2n : SockAddr → String)
    (threadOk : Bool) (maxT now : Nat) (og0 : Outgoing) (w : World) :
    SetupResult × World :=
  let og := { og0 with evArmed := false }
  match (lookup_node w og.name).bind fun n => n.connection with
  | some cid =>
    (.attached og, { w with conns := attach_outgoing w.conns cid og })
  | none =>
    let cid := w.nextId
    let c : Conn := { id := cid, name := og.name }
    let w1 : World := { w with nextId := w.nextId + 1 }
    let cfg := peerCfg og.name
    let og1 := { og with cfgs := cfg.addresses }
    match cfg.addresses with
    | [] => (.noAddress og1, w1)
    | _ :: _ =>
      let c1 := { c with outgoing := some og1 }
      let w2 : World := { w1 with conns := w1.conns ++ [c1] }
      let r := do_outgoing_connection res cfg mkSock h2n maxT now c1
      let w3 : World :=
        match r with
        | .retryScheduled _ => { w2 with conns := w2.conns.filter fun x => x.id ≠ cid }
        | .connecting c2 => { w2 with conns := w2.conns.map fun x => if x.id = cid then c2 else x }
        | .fatal => w2
      if threadOk then (.started cid r, w3) else (.fatalThread, w3)

/-- The log events the claims about `try_outgoing_connections` mention. -/
inductive LogEv where
  | invalidName (s : String)
  | noAddress (s : String)
deriving DecidableEq

/-- `try_outgoing_connections` (net_socket.c:507-530): walk the `ConnectTo`
chain; a name failing `check_id` is logged and skipped (`continue`); a
valid name gets a zeroed `outgoing_t` inserted into `outgoing_list` and
`setup_outgoing_connection` is run on it.  The first component is `none`
when the process aborted (`thread_create` failure inside setup). -/
def try_outgoing_connections (check_id : String → Bool)
    (peerCfg : String → PeerConfig) (res : Resolver)
    (mkSock : SockAddr → Option Nat) (h2n : SockAddr → String)
    (threadOk : Bool) (maxT now : Nat) :
    List String → World → Option World × List LogEv
  | [], w => (some w, [])
  | name :: rest, w =>
    if check_id name then
      let og := initial_outgoing name
      let w1 : World := { w with outgoingNames := w.outgoingNames ++ [name] }
      match setup_outgoing_connection peerCfg res mkSock h2n threadOk maxT now og w1 with
      | (.fatalThread, _) => (none, [])
      | (.noAddress _, w2) =>
        let p := try_outgoing_connections check_id peerCfg res mkSock h2n threadOk maxT now rest w2
        (p.1, .noAddress name :: p.2)
      | (_, w2) =>
        try_outgoing_connections check_id peerCfg res mkSock h2n threadOk maxT now rest w2
    else
      let p := try_outgoing_connections check_id peerCfg res mkSock h2n threadOk maxT now rest w
      (p.1, .invalidName name :: p.2)

/-- One successful `accept` iteration of `handle_new_meta_connection`
(net_socket.c:457-494): build the record with placeholder name
`"<unknown>"`, the unmapped remote address, its hostname label and the
accepted descriptor; under the registry lock, register it and spawn the
worker.  Result `none` models the `abort()` on `thread_create` failure
(line 489-492); there is no other exit from that branch. -/
def handle_accept_iter (h2n : SockAddr → String) (threadOk : Bool)
    (sa : SockAddr) (fd : Nat) (w : World) : Option World :=
  let c : Conn := { id := w.nextId, name := "<unknown>", address := some sa,
                    hostname := some (h2n sa), socket := some fd }
  let w1 : World := { w with nextId := w.nextId + 1, conns := w.conns ++ [c] }
  if threadOk then some w1 else none

/-- The inner `for` loop of `bind_to_address` (net_socket.c:133-139):
`status = -1;` then for each element of the resolved list,
`status = bind(c->socket, ai_list->ai_addr, ai_list->ai_addrlen)` — note
the source binds `ai_list` (the *first* result) on every iteration, never
`ai_ptr` — breaking on success.  `first` is `ai_list`'s head. -/
def bind_for_loop (bindOk : SockAddr → Bool) (first : SockAddr) :
    List SockAddr → Bool
  | [] => false
  | _ :: rest => bindOk first || bind_for_loop bindOk first rest

/-- `bind_to_address` (net_socket.c:98-153): `true` immediately when no
`BindToAddress` is configured; `false` when resolving the configured
bind-address fails; otherwise the result of the bind loop over the
resolved list. -/
def bind_to_address (bindToAddress : Option String)
    (resolveLocal : String → Option (List SockAddr))
    (bindOk : SockAddr → Bool) : Bool :=
  match bindToAddress with
  | none => true
  | some node =>
    match resolveLocal node with
    | none => false
    | some [] => false
    | some (first :: rest) => bind_for_loop bindOk first (first :: rest)

/-- A bind oracle for the concrete bind-address scenario: binding succeeds
exactly on host `192.0.2.2`. -/
def exampleBindOk (a : SockAddr) : Bool := a.host == "192.0.2.2"

/-- Registry-relevant events for the lock-discipline claim: acquiring and
releasing the registry mutex, and the registry operations (the
already-connected check, `connection_add`, `connection_del`). -/
inductive RegEv where
  | lock
  | unlock
  | check
  | add
  | del
deriving DecidableEq

/-- All registry operations in the event list happen while the mutex is
held, starting from lock depth `depth`. -/
def regOpsLockedFrom (depth : Nat) : List RegEv → Bool
  | [] => true
  | .lock :: rest => regOpsLockedFrom (depth + 1) rest
  | .unlock :: rest => regOpsLockedFrom (depth - 1) rest
  | _ :: rest => decide (0 < depth) && regOpsLockedFrom depth rest

/-- The registry-relevant event trace of `handle_new_meta_connection`
(net_socket.c:450-495), one pair `(acceptOk, threadOk)` per `while(true)`
iteration: a failed `accept` returns from the function; a successful one
takes the mutex, runs `connection_add`, and either spawns the worker and
unlocks, or hits the `thread_create` `abort()` (still inside the lock, no
further events). -/
def handle_new_meta_events : List (Bool × Bool) → List RegEv
  | [] => []
  | (false, _) :: _ => []
  | (true, threadOk) :: rest =>
    if threadOk then .lock :: .add :: .unlock :: handle_new_meta_events rest
    else [.lock, .add]

/-- The registry-relevant event trace of `setup_outgoing_connection`
together with the `do_outgoing_connection` it invokes
(net_socket.c:399-444): the already-connected check (`lookup_node` /
`n->connection`, lines 405-413), then — unless attached or without an
`Address` entry — `connection_add` (line 436) and, when the address walk
exhausts, `connection_del` (line 334).  No mutex operation occurs anywhere
on this path in this module. -/
def setup_outgoing_events (alreadyConnected hasAddress exhausted : Bool) :
    List RegEv :=
  .check ::
    (if alreadyConnected then []
     else if hasAddress then .add :: (if exhausted then [.del] else [])
     else [])

/-- Modelled from the spec: the callers of the outgoing path
(`try_outgoing_connections` at startup and the retry event firing
`retry_outgoing_handler`) live outside this file (`net.c` main loop /
event loop).  Per §5 of the spec, registry mutation is always performed
while holding the registry's single lock and the outgoing path is driven
by the single-threaded event loop, which holds that lock when it calls
into this module; so the outgoing path starts at lock depth 1. -/
def outgoingCallerLockDepth : Nat := 1

/-! ## Shared lemmas -/

/-- When `advance` yields no candidate, the source it returns is fully
exhausted: no resolved list held and no configuration entries left. -/
theorem advance_none_exhausted (res : Resolver) (cfg : PeerConfig) :
    ∀ o o', advance res cfg o = (none, o') → o'.ai = none ∧ o'.cfgs = [] := by
  intro o
  induction o using advance.induct res cfg with
  | case1 nm aip tm ea et =>
    intro o' h
    simp [advance] at h
    simp [← h]
  | case2 nm e rest aip tm ea et hp l ih =>
    intro o' h
    rw [advance] at h
    exact ih o' h
  | case3 nm cfgs l tm ea et ih =>
    intro o' h
    rw [advance] at h
    exact ih o' h
  | case4 nm cfgs l a rest tm ea et =>
    intro o' h
    simp [advance] at h

/-- An exhausted source is a fixed point of `advance`: no further
candidates until it is reset. -/
theorem advance_exhausted_fix (res : Resolver) (cfg : PeerConfig) (o o' : Outgoing)
    (h : advance res cfg o = (none, o')) : advance res cfg o' = (none, o') := by
  obtain ⟨h1, h2⟩ := advance_none_exhausted res cfg o o' h
  obtain ⟨nm, cfgs, ai, aip, tm, ea, et⟩ := o'
  simp at h1 h2
  subst h1; subst h2
  simp [advance]

/-- Every run of the outgoing loop ends in retry scheduling (timer armed
for now + timeout, timeout stepped by 5 and capped) or in a connecting
record whose address, hostname and socket correspond to a candidate on
which socket creation succeeded. -/
theorem do_outgoing_loop_spec (res : Resolver) (cfg : PeerConfig)
    (mkSock : SockAddr → Option Nat) (h2n : SockAddr → String) (maxT now : Nat) :
    ∀ c o,
      (∃ og, do_outgoing_loop res cfg mkSock h2n maxT now c o = .retryScheduled og ∧
        og.evArmed = true ∧ og.evTime = now + og.timeout ∧
        og.timeout = min (o.timeout + 5) maxT)
      ∨ (∃ c' a s, do_outgoing_loop res cfg mkSock h2n maxT now c o = .connecting c' ∧
        c'.connecting = true ∧ c'.address = some a ∧ c'.hostname = some (h2n a) ∧
        mkSock a = some s ∧ c'.socket = some s) := by
  intro c o
  induction c, o using do_outgoing_loop.induct res cfg mkSock h2n maxT now with
  | case1 c nm aip tm ea et =>
    left
    refine ⟨_, by rw [do_outgoing_loop], ?_, ?_, ?_⟩ <;>
      simp [retry_outgoing, Nat.min_def] <;> split_ifs <;> omega
  | case2 c nm e rest aip tm ea et hp l ih =>
    rw [do_outgoing_loop]
    simpa using ih
  | case3 c nm cfgs l tm ea et ih =>
    rw [do_outgoing_loop]
    simpa using ih
  | case4 c nm cfgs l a rest tm ea et c1 o1 hmk ih =>
    rw [do_outgoing_loop]
    simp only [hmk]
    simpa using ih
  | case5 c nm cfgs l a rest tm ea et s hmk =>
    rw [do_outgoing_loop]
    simp only [hmk]
    right
    exact ⟨_, a, s, rfl, rfl, rfl, rfl, hmk, rfl⟩

/-- When the address source is exhausted, the outgoing loop schedules the
retry on exactly the exhausted source `advance` leaves behind. -/
theorem advance_none_loop (res : Resolver) (cfg : PeerConfig)
    (mkSock : SockAddr → Option Nat) (h2n : SockAddr → String) (maxT now : Nat) :
    ∀ c o o', advance res cfg o = (none, o') →
      do_outgoing_loop res cfg mkSock h2n maxT now c o =
        .retryScheduled (retry_outgoing maxT now o') := by
  intro c o
  induction o using advance.induct res cfg with
  | case1 nm aip tm ea et =>
    intro o' h
    simp [advance] at h
    rw [do_outgoing_loop, ← h]
  | case2 nm e rest aip tm ea et hp l ih =>
    intro o' h
    rw [advance] at h
    rw [do_outgoing_loop]
    exact ih o' h
  | case3 nm cfgs l tm ea et ih =>
    intro o' h
    rw [advance] at h
    rw [do_outgoing_loop]
    exact ih o' h
  | case4 nm cfgs l a rest tm ea et =>
    intro o' h
    simp [advance] at h

/-- Walking a source that holds a resolved list yields that list's
remaining cursor first, then whatever the remaining entries yield. -/
theorem attemptList_drain (res : Resolver) (cfg : PeerConfig) (nm : String)
    (cfgs : List String) (l : List SockAddr) (tm : Nat) (ea : Bool) (et : Nat) :
    ∀ aipl, attemptList res cfg ⟨nm, cfgs, some l, aipl, tm, ea, et⟩ =
      aipl ++ attemptList res cfg ⟨nm, cfgs, none, [], tm, ea, et⟩ := by
  intro aipl
  induction aipl with
  | nil => rw [attemptList]; simp
  | cons a rest ih => rw [attemptList]; simp [ih]

/-- The candidates of a round over `entries` are exactly the
per-entry resolution results, in configuration order, concatenated in
resolver order. -/
theorem attemptList_fresh (res : Resolver) (cfg : PeerConfig) (nm : String)
    (tm : Nat) (ea : Bool) (et : Nat) :
    ∀ entries aip, attemptList res cfg ⟨nm, entries, none, aip, tm, ea, et⟩ =
      entries.flatMap fun e =>
        (res (entryHostPort cfg.port e).1 (entryHostPort cfg.port e).2).getD [] := by
  intro entries
  induction entries with
  | nil => intro aip; rw [attemptList]; simp
  | cons e rest ih =>
    intro aip
    rw [attemptList]
    cases hres : res (entryHostPort cfg.port e).1 (entryHostPort cfg.port e).2 with
    | none => simpa [hres] using ih []
    | some xs => simp [hres, attemptList_drain, ih []]

/-- The attach branch of `setup_outgoing_connection`: when the peer's node
has a live connection record, the call only disarms the retry event and
attaches the pending outgoing to that record. -/
theorem setup_attached_spec (peerCfg : String → PeerConfig) (res : Resolver)
    (mkSock : SockAddr → Option Nat) (h2n : SockAddr → String)
    (threadOk : Bool) (maxT now : Nat) (og : Outgoing) (w : World) (cid : Nat)
    (h : (lookup_node w og.name).bind (fun n => n.connection) = some cid) :
    setup_outgoing_connection peerCfg res mkSock h2n threadOk maxT now og w =
      (.attached { og with evArmed := false },
       { w with conns := attach_outgoing w.conns cid { og with evArmed := false } }) := by
  rw [setup_outgoing_connection]
  simp [h]

/-- The no-Address branch of `setup_outgoing_connection`: the fresh record
is freed again (the registry is untouched, only the allocation counter
moved) and no retry is armed. -/
theorem setup_noAddress_spec (peerCfg : String → PeerConfig) (res : Resolver)
    (mkSock : SockAddr → Option Nat) (h2n : SockAddr → String)
    (threadOk : Bool) (maxT now : Nat) (og : Outgoing) (w : World)
    (hconn : (lookup_node w og.name).bind (fun n => n.connection) = none)
    (haddr : (peerCfg og.name).addresses = []) :
    setup_outgoing_connection peerCfg res mkSock h2n threadOk maxT now og w =
      (.noAddress { og with evArmed := false, cfgs := [] },
       { w with nextId := w.nextId + 1 }) := by
  rw [setup_outgoing_connection]
  simp [hconn, haddr]

/-! ## Claim theorems -/

/-- Claim C1: each retry-scheduling step increases the retry timeout by
exactly 5 seconds and then caps it at the configured maximum; the timer is
armed for now + timeout; with maximum 20 the timeouts across successive
failed rounds are 5, 10, 15, 20, 20, 20. -/
theorem claim_C1_retry_backoff :
    (∀ maxT now o, (retry_outgoing maxT now o).timeout = min (o.timeout + 5) maxT ∧
      (retry_outgoing maxT now o).evArmed = true ∧
      (retry_outgoing maxT now o).evTime = now + (retry_outgoing maxT now o).timeout) ∧
    (List.range 6).map (fun n => (nth_retry 20 (n + 1)).timeout) =
      [5, 10, 15, 20, 20, 20] := by
  constructor
  · intro maxT now o
    refine ⟨?_, rfl, rfl⟩
    simp [retry_outgoing, Nat.min_def]
    split_ifs <;> omega
  · decide

/-- Claim C2: an `Address` entry with an embedded port uses that port; an
entry without one falls back to the configured `Port` or `"655"`; entries
are consumed in configuration order, so the attempts of a round are the
per-entry resolutions concatenated in order; concretely, with entries
`["10.0.0.1 1000", "10.0.0.2"]` and no `Port` the attempts target port
1000 on the first host and then port 655 on the second host. -/
theorem claim_C2_entry_port_selection :
    (∀ cfgPort entry h p, splitAtSpace entry.toList = some (h, p) →
      entryHostPort cfgPort entry = (String.mk h, String.mk p)) ∧
    (∀ cfgPort entry, splitAtSpace entry.toList = none →
      entryHostPort cfgPort entry = (entry, cfgPort.getD "655")) ∧
    (∀ res cfg nm entries, attemptList res cfg (fresh_source nm entries) =
      entries.flatMap fun e =>
        (res (entryHostPort cfg.port e).1 (entryHostPort cfg.port e).2).getD []) ∧
    attemptList (fun h p => some [⟨h, p⟩])
      ⟨["10.0.0.1 1000", "10.0.0.2"], none⟩
      (fresh_source "peer" ["10.0.0.1 1000", "10.0.0.2"]) =
      [⟨"10.0.0.1", "1000"⟩, ⟨"10.0.0.2", "655"⟩] := by
  refine ⟨?_, ?_, ?_, ?_⟩
  · intro cfgPort entry h p hs
    rw [entryHostPort.eq_def, hs]
  · intro cfgPort entry hs
    rw [entryHostPort.eq_def, hs]
    cases cfgPort <;> rfl
  · intro res cfg nm entries
    exact attemptList_fresh res cfg nm 0 false 0 entries []
  · rw [show fresh_source "peer" ["10.0.0.1 1000", "10.0.0.2"] =
        (⟨"peer", ["10.0.0.1 1000", "10.0.0.2"], none, [], 0, false, 0⟩ : Outgoing) from rfl,
       attemptList_fresh]
    decide

/-- Claim C2 witness: concrete entry splits. -/
theorem claim_C2_entry_port_selection_witness :
    entryHostPort none "10.0.0.1 1000" = ("10.0.0.1", "1000") ∧
    entryHostPort (some "700") "10.0.0.2" = ("10.0.0.2", "700") ∧
    entryHostPort none "10.0.0.2" = ("10.0.0.2", "655") :=
  ⟨claim_C2_entry_port_selection.1 none "10.0.0.1 1000"
      "10.0.0.1".toList "1000".toList (by decide),
   claim_C2_entry_port_selection.2.1 (some "700") "10.0.0.2" (by decide),
   claim_C2_entry_port_selection.2.1 none "10.0.0.2" (by decide)⟩

/-- Claim C3, evaluated at the failing input: with `BindToAddress`
resolving to two candidates of which only the *second* binds, the code
reports failure — the bind loop of net_socket.c:134-139 passes
`ai_list->ai_addr` (the first result) to `bind` on every iteration and
never advances to `ai_ptr`, so a later bindable candidate is never tried,
contradicting the claim that every resolved candidate is tried before
failure is reported. -/
theorem claim_C3_bind_first_only :
    bind_to_address (some "bindhost")
      (fun _ => some [⟨"192.0.2.1", "0"⟩, ⟨"192.0.2.2", "0"⟩]) exampleBindOk = false ∧
    exampleBindOk ⟨"192.0.2.2", "0"⟩ = true ∧
    exampleBindOk ⟨"192.0.2.1", "0"⟩ = false := by
  refine ⟨?_, by decide, by decide⟩
  decide

/-- Claim C4: when advancing the address source yields no further
candidate, the attempt of a still-configured peer (it has `Address`
entries) transitions to retry scheduling — the retry timer is armed and
the record deleted (encoded by `DoOutResult.retryScheduled`); a peer with
no `Address` entries (no longer configured for outgoing connections) is
abandoned at the `setup_outgoing_connection` re-entry: the record is freed
with the registry untouched and no retry armed. -/
theorem claim_C4_exhaustion_retry_or_abandon :
    (∀ (res : Resolver) (cfg : PeerConfig) (mkSock : SockAddr → Option Nat)
       (h2n : SockAddr → String) (maxT now : Nat) (c : Conn) (o o1 : Outgoing),
      cfg.addresses ≠ [] → c.outgoing = some o → advance res cfg o = (none, o1) →
      do_outgoing_connection res cfg mkSock h2n maxT now c =
        .retryScheduled (retry_outgoing maxT now o1) ∧
      (retry_outgoing maxT now o1).evArmed = true) ∧
    (∀ (peerCfg : String → PeerConfig) (res : Resolver) (mkSock : SockAddr → Option Nat)
       (h2n : SockAddr → String) (threadOk : Bool) (maxT now : Nat) (og : Outgoing)
       (w : World),
      (lookup_node w og.name).bind (fun n => n.connection) = none →
      (peerCfg og.name).addresses = [] →
      ∃ og1, setup_outgoing_connection peerCfg res mkSock h2n threadOk maxT now og w =
        (.noAddress og1, { w with nextId := w.nextId + 1 }) ∧ og1.evArmed = false) := by
  constructor
  · intro res cfg mkSock h2n maxT now c o o1 hcfg hog hadv
    rw [do_outgoing_connection, hog]
    exact ⟨advance_none_loop res cfg mkSock h2n maxT now c o o1 hadv, rfl⟩
  · intro peerCfg res mkSock h2n threadOk maxT now og w hconn haddr
    exact ⟨_, setup_noAddress_spec peerCfg res mkSock h2n threadOk maxT now og w hconn haddr,
           rfl⟩

/-- Claim C4 witness: a configured peer with an exhausted source gets a
retry scheduled; a peer with no `Address` entries is abandoned with no
retry armed. -/
theorem claim_C4_witness :
    (do_outgoing_connection (fun _ _ => none) ⟨["h"], none⟩ (fun _ => none) (fun a => a.host)
        900 0 { id := 0, name := "p", outgoing := some ⟨"p", [], none, [], 0, false, 0⟩ } =
      .retryScheduled (retry_outgoing 900 0 ⟨"p", [], none, [], 0, false, 0⟩)) ∧
    (∃ og1, setup_outgoing_connection (fun _ => ⟨[], none⟩) (fun _ _ => none) (fun _ => none)
        (fun a => a.host) true 900 0 (initial_outgoing "q") ⟨[], [], [], 0⟩ =
      (.noAddress og1, ⟨[], [], [], 1⟩) ∧ og1.evArmed = false) := by
  constructor
  · exact (claim_C4_exhaustion_retry_or_abandon.1 (fun _ _ => none) ⟨["h"], none⟩
      (fun _ => none) (fun a => a.host) 900 0
      { id := 0, name := "p", outgoing := some ⟨"p", [], none, [], 0, false, 0⟩ }
      ⟨"p", [], none, [], 0, false, 0⟩ ⟨"p", [], none, [], 0, false, 0⟩
      (by decide) rfl (by rw [advance])).1
  · exact claim_C4_exhaustion_retry_or_abandon.2 (fun _ => ⟨[], none⟩) (fun _ _ => none)
      (fun _ => none) (fun a => a.host) true 900 0 (initial_outgoing "q") ⟨[], [], [], 0⟩
      rfl rfl

/-- Claim C5: a request to set up an outgoing connection to a peer that
already has a live connection record creates no second record (registry
size, allocation counter and node table unchanged) and only attaches the
pending outgoing to the existing record; every other record is
untouched. -/
theorem claim_C5_attach_not_duplicate (peerCfg : String → PeerConfig) (res : Resolver)
    (mkSock : SockAddr → Option Nat) (h2n : SockAddr → String) (threadOk : Bool)
    (maxT now : Nat) (og : Outgoing) (w : World) (cid : Nat)
    (h : (lookup_node w og.name).bind (fun n => n.connection) = some cid) :
    ∃ og1,
      (setup_outgoing_connection peerCfg res mkSock h2n threadOk maxT now og w).1 =
        .attached og1 ∧
      (setup_outgoing_connection peerCfg res mkSock h2n threadOk maxT now og w).2.conns.length
        = w.conns.length ∧
      (setup_outgoing_connection peerCfg res mkSock h2n threadOk maxT now og w).2.nextId
        = w.nextId ∧
      (setup_outgoing_connection peerCfg res mkSock h2n threadOk maxT now og w).2.nodes
        = w.nodes ∧
      (∀ c ∈ w.conns, c.id = cid → { c with outgoing := some og1 } ∈
        (setup_outgoing_connection peerCfg res mkSock h2n threadOk maxT now og w).2.conns) ∧
      (∀ c ∈ w.conns, c.id ≠ cid → c ∈
        (setup_outgoing_connection peerCfg res mkSock h2n threadOk maxT now og w).2.conns) := by
  rw [setup_attached_spec peerCfg res mkSock h2n threadOk maxT now og w cid h]
  refine ⟨{ og with evArmed := false }, rfl, ?_, rfl, rfl, ?_, ?_⟩
  · simp [attach_outgoing]
  · intro c hc hid
    simp only [attach_outgoing]
    exact List.mem_map.mpr ⟨c, hc, by simp [hid]⟩
  · intro c hc hid
    simp only [attach_outgoing]
    exact List.mem_map.mpr ⟨c, hc, by simp [hid]⟩

/-- Claim C5 witness: a world whose node `p` has live record 7. -/
theorem claim_C5_witness :
    ∃ og1,
      (setup_outgoing_connection (fun _ => ⟨["h"], none⟩) (fun _ _ => none) (fun _ => none)
        (fun a => a.host) true 900 0 (initial_outgoing "p")
        ⟨[⟨"p", some 7⟩], [⟨7, "p", none, none, none, false, none⟩], [], 8⟩).1 =
          .attached og1 ∧
      (setup_outgoing_connection (fun _ => ⟨["h"], none⟩) (fun _ _ => none) (fun _ => none)
        (fun a => a.host) true 900 0 (initial_outgoing "p")
        ⟨[⟨"p", some 7⟩], [⟨7, "p", none, none, none, false, none⟩], [], 8⟩).2.conns.length
        = 1 := by
  obtain ⟨og1, h1, h2, hrest⟩ := claim_C5_attach_not_duplicate (fun _ => ⟨["h"], none⟩)
    (fun _ _ => none) (fun _ => none) (fun a => a.host) true 900 0 (initial_outgoing "p")
    ⟨[⟨"p", some 7⟩], [⟨7, "p", none, none, none, false, none⟩], [], 8⟩ 7 (by decide)
  exact ⟨og1, h1, h2⟩

/-- Claim C6: advancing the address source yields the next candidate of
the entry currently consumed; an exhausted inner list is released and the
outer cursor advances to the next entry, which is freshly resolved, and
advancing retries; it returns nothing only when no configured entries
remain, and after total exhaustion no further candidates are yielded
until the source is reset. -/
theorem claim_C6_advance_semantics :
    (∀ res cfg (o : Outgoing) l a rest, o.ai = some l → o.aip = a :: rest →
      advance res cfg o = (some a, { o with aip := rest })) ∧
    (∀ res cfg (o : Outgoing) l, o.ai = some l → o.aip = [] →
      advance res cfg o = advance res cfg { o with ai := none }) ∧
    (∀ res cfg (o : Outgoing) e rest, o.ai = none → o.cfgs = e :: rest →
      advance res cfg o = advance res cfg
        { o with
            cfgs := rest
            ai := res (entryHostPort cfg.port e).1 (entryHostPort cfg.port e).2
            aip := (res (entryHostPort cfg.port e).1 (entryHostPort cfg.port e).2).getD [] }) ∧
    (∀ res cfg o o', advance res cfg o = (none, o') → o'.cfgs = [] ∧ o'.ai = none) ∧
    (∀ res cfg o o', advance res cfg o = (none, o') → advance res cfg o' = (none, o')) := by
  refine ⟨?_, ?_, ?_, ?_, ?_⟩
  · intro res cfg o l a rest h1 h2
    obtain ⟨nm, cfgs, ai, aip, tm, ea, et⟩ := o
    simp at h1 h2
    subst h1; subst h2
    rw [advance]
  · intro res cfg o l h1 h2
    obtain ⟨nm, cfgs, ai, aip, tm, ea, et⟩ := o
    simp at h1 h2
    subst h1; subst h2
    rw [advance]
  · intro res cfg o e rest h1 h2
    obtain ⟨nm, cfgs, ai, aip, tm, ea, et⟩ := o
    simp at h1 h2
    subst h1; subst h2
    rw [advance]
  · intro res cfg o o' h
    exact ⟨(advance_none_exhausted res cfg o o' h).2,
           (advance_none_exhausted res cfg o o' h).1⟩
  · intro res cfg o o' h
    exact advance_exhausted_fix res cfg o o' h

/-- Claim C6 witness: yielding the held candidate. -/
theorem claim_C6_advance_semantics_witness :
    advance (fun _ _ => none) ⟨[], none⟩
        ⟨"p", [], some [⟨"h", "655"⟩], [⟨"h", "655"⟩], 0, false, 0⟩ =
      (some ⟨"h", "655"⟩, ⟨"p", [], some [⟨"h", "655"⟩], [], 0, false, 0⟩) :=
  claim_C6_advance_semantics.1 (fun _ _ => none) ⟨[], none⟩
    ⟨"p", [], some [⟨"h", "655"⟩], [⟨"h", "655"⟩], 0, false, 0⟩
    [⟨"h", "655"⟩] ⟨"h", "655"⟩ [] rfl rfl

/-- Claim C7: a `ConnectTo` name failing `check_id` is logged and skipped
while the rest of the list is still processed; a peer with no `Address`
entry is logged and abandoned — the fresh record freed, registry and node
table untouched — without aborting, and the rest of the list is still
processed. -/
theorem claim_C7_config_errors_nonfatal :
    (∀ (check_id : String → Bool) (peerCfg : String → PeerConfig) (res : Resolver)
       (mkSock : SockAddr → Option Nat) (h2n : SockAddr → String) (threadOk : Bool)
       (maxT now : Nat) (name : String) (rest : List String) (w : World),
      check_id name = false →
      try_outgoing_connections check_id peerCfg res mkSock h2n threadOk maxT now
          (name :: rest) w =
        ((try_outgoing_connections check_id peerCfg res mkSock h2n threadOk maxT now
            rest w).1,
         .invalidName name ::
           (try_outgoing_connections check_id peerCfg res mkSock h2n threadOk maxT now
             rest w).2)) ∧
    (∀ (check_id : String → Bool) (peerCfg : String → PeerConfig) (res : Resolver)
       (mkSock : SockAddr → Option Nat) (h2n : SockAddr → String) (threadOk : Bool)
       (maxT now : Nat) (name : String) (rest : List String) (w : World),
      check_id name = true →
      (lookup_node w name).bind (fun n => n.connection) = none →
      (peerCfg name).addresses = [] →
      try_outgoing_connections check_id peerCfg res mkSock h2n threadOk maxT now
          (name :: rest) w =
        ((try_outgoing_connections check_id peerCfg res mkSock h2n threadOk maxT now rest
            { w with outgoingNames := w.outgoingNames ++ [name], nextId := w.nextId + 1 }).1,
         .noAddress name ::
           (try_outgoing_connections check_id peerCfg res mkSock h2n threadOk maxT now rest
             { w with outgoingNames := w.outgoingNames ++ [name], nextId := w.nextId + 1 }).2)) := by
  constructor
  · intro check_id peerCfg res mkSock h2n threadOk maxT now name rest w hc
    rw [try_outgoing_connections]
    simp [hc]
  · intro check_id peerCfg res mkSock h2n threadOk maxT now name rest w hc hconn haddr
    rw [try_outgoing_connections]
    simp only [hc, if_true]
    rw [setup_noAddress_spec peerCfg res mkSock h2n threadOk maxT now (initial_outgoing name)
      { w with outgoingNames := w.outgoingNames ++ [name] } hconn haddr]

/-- Claim C7 witness: an invalid name followed by a peer with no
`Address` entry; both are logged, neither aborts, both are processed. -/
theorem claim_C7_witness :
    try_outgoing_connections (fun n => n == "good") (fun _ => ⟨[], none⟩)
        (fun _ _ => none) (fun _ => none) (fun a => a.host) true 900 0
        ["bad name", "good"] ⟨[], [], [], 0⟩ =
      (some ⟨[], [], ["good"], 1⟩, [.invalidName "bad name", .noAddress "good"]) := by
  rw [claim_C7_config_errors_nonfatal.1 (fun n => n == "good") (fun _ => ⟨[], none⟩)
    (fun _ _ => none) (fun _ => none) (fun a => a.host) true 900 0 "bad name" ["good"]
    ⟨[], [], [], 0⟩ (by decide)]
  rw [claim_C7_config_errors_nonfatal.2 (fun n => n == "good") (fun _ => ⟨[], none⟩)
    (fun _ _ => none) (fun _ => none) (fun a => a.host) true 900 0 "good" []
    ⟨[], [], [], 0⟩ (by decide) rfl rfl]
  rfl

/-- Claim C8: invoking the outgoing routine on a record with no
pending-outgoing back-reference is fatal; `thread_create` failure in the
outgoing setup path and in the accept path is fatal; the fatal outcomes
(`DoOutResult.fatal`, `SetupResult.fatalThread`, `none`) are terminal —
no retry or recovery constructor exists for them. -/
theorem claim_C8_fatal_aborts :
    (∀ (res : Resolver) (cfg : PeerConfig) (mkSock : SockAddr → Option Nat)
       (h2n : SockAddr → String) (maxT now : Nat) (c : Conn),
      c.outgoing = none →
      do_outgoing_connection res cfg mkSock h2n maxT now c = .fatal) ∧
    (∀ (peerCfg : String → PeerConfig) (res : Resolver) (mkSock : SockAddr → Option Nat)
       (h2n : SockAddr → String) (maxT now : Nat) (og : Outgoing) (w : World),
      (lookup_node w og.name).bind (fun n => n.connection) = none →
      (peerCfg og.name).addresses ≠ [] →
      (setup_outgoing_connection peerCfg res mkSock h2n false maxT now og w).1 =
        .fatalThread) ∧
    (∀ (h2n : SockAddr → String) (sa : SockAddr) (fd : Nat) (w : World),
      handle_accept_iter h2n false sa fd w = none) := by
  refine ⟨?_, ?_, ?_⟩
  · intro res cfg mkSock h2n maxT now c h
    rw [do_outgoing_connection, h]
  · intro peerCfg res mkSock h2n maxT now og w hconn haddr
    rw [setup_outgoing_connection]
    simp only [hconn]
    cases hA : (peerCfg og.name).addresses with
    | nil => exact absurd hA haddr
    | cons e rest => simp [hA]
  · intro h2n sa fd w
    rfl

/-- Claim C8 witness: each fatal condition at a concrete input. -/
theorem claim_C8_witness :
    do_outgoing_connection (fun _ _ => none) ⟨[], none⟩ (fun _ => none) (fun a => a.host)
        900 0 { id := 0, name := "p" } = .fatal ∧
    (setup_outgoing_connection (fun _ => ⟨["h"], none⟩) (fun _ _ => none) (fun _ => none)
        (fun a => a.host) false 900 0 (initial_outgoing "p") ⟨[], [], [], 0⟩).1 =
      .fatalThread ∧
    handle_accept_iter (fun a => a.host) false ⟨"h", "1"⟩ 3 ⟨[], [], [], 0⟩ = none :=
  ⟨claim_C8_fatal_aborts.1 (fun _ _ => none) ⟨[], none⟩ (fun _ => none) (fun a => a.host)
      900 0 { id := 0, name := "p" } rfl,
   claim_C8_fatal_aborts.2.1 (fun _ => ⟨["h"], none⟩) (fun _ _ => none) (fun _ => none)
      (fun a => a.host) 900 0 (initial_outgoing "p") ⟨[], [], [], 0⟩ rfl (by decide),
   claim_C8_fatal_aborts.2.2 (fun a => a.host) ⟨"h", "1"⟩ 3 ⟨[], [], [], 0⟩⟩

/-- Claim C9: every registry operation of the accept path happens inside
its lock/unlock pair (from lock depth 0), and every registry operation of
the outgoing path happens at the positive lock depth its callers hold
(spec-modelled as `outgoingCallerLockDepth`), on all branches of both
paths. -/
theorem claim_C9_lock_discipline :
    (∀ iters, regOpsLockedFrom 0 (handle_new_meta_events iters) = true) ∧
    (∀ alreadyConnected hasAddress exhausted,
      regOpsLockedFrom outgoingCallerLockDepth
        (setup_outgoing_events alreadyConnected hasAddress exhausted) = true) := by
  constructor
  · intro iters
    induction iters with
    | nil => rfl
    | cons p rest ih =>
      obtain ⟨aok, tok⟩ := p
      cases aok
      · rfl
      · cases tok
        · rfl
        · simpa [handle_new_meta_events, regOpsLockedFrom] using ih
  · intro a b c
    cases a <;> cases b <;> cases c <;> decide

/-- Claim C10: `do_outgoing_connection` ends in exactly one of three
states: fatal (no pending-outgoing back-reference), retry scheduled — the
returned pending outgoing carries the armed timer (fire time
now + timeout) and, the record being deleted, survives on its own — or
connecting, with the record's target address, hostname label and socket
set and the connecting flag true. -/
theorem claim_C10_outgoing_trichotomy (res : Resolver) (cfg : PeerConfig)
    (mkSock : SockAddr → Option Nat) (h2n : SockAddr → String)
    (maxT now : Nat) (c : Conn) :
    (c.outgoing = none ∧
      do_outgoing_connection res cfg mkSock h2n maxT now c = .fatal) ∨
    (∃ og, do_outgoing_connection res cfg mkSock h2n maxT now c = .retryScheduled og ∧
      og.evArmed = true ∧ og.evTime = now + og.timeout) ∨
    (∃ c1 a s, do_outgoing_connection res cfg mkSock h2n maxT now c = .connecting c1 ∧
      c1.connecting = true ∧ c1.address = some a ∧ c1.hostname = some (h2n a) ∧
      mkSock a = some s ∧ c1.socket = some s) := by
  cases h : c.outgoing with
  | none =>
    left
    exact ⟨rfl, by rw [do_outgoing_connection, h]⟩
  | some o =>
    rw [do_outgoing_connection, h]
    rcases do_outgoing_loop_spec res cfg mkSock h2n maxT now c o with
      ⟨og, heq, h1, h2, h3⟩ | ⟨c1, a, s, heq, hs⟩
    · right; left; exact ⟨og, heq, h1, h2⟩
    · right; right; exact ⟨c1, a, s, heq, hs⟩

end TincNet
